import Mathlib

/-! The browser API client of `frontend/src/api.js`.

A shallow embedding of the axios wrapper: client storage, the request
interceptor, the eight network operations and `avatarUrl`, followed by the
properties of that layer.

JavaScript values are embedded as `JSValue`.  Asynchronous operations are
embedded as functions from the world before the call (client storage and the
log of dispatched requests) and the behaviour of the network on the single
request they issue, to the settled result of the promise and the world after.
Conversions that throw (a value to a string, a string to its percent-encoding)
return the error they throw.
-/

set_option autoImplicit false

namespace ApiClient

/-! ## JavaScript values -/

/-- A binary payload (a `Blob`, of which a `File` is one), given by its bytes. -/
structure Blob where
  bytes : List Nat
  deriving DecidableEq, Repr

/-- The JavaScript values this layer handles: what `JSON.parse` produces, plus
`undefined` and binary payloads.  A number is carried by its canonical decimal
rendering (the result of `Number.prototype.toString`), since the layer never
computes with numbers; an object is carried by its own properties in order. -/
inductive JSValue where
  | undefined
  | null
  | bool (b : Bool)
  | num (text : String)
  | str (s : String)
  | blob (payload : Blob)
  | arr (items : List JSValue)
  | obj (fields : List (String × JSValue))
  deriving Repr

/-- The reasons a promise of this layer is rejected with, or a call of
`avatarUrl` throws: the two failures of an HTTP call (the transport failed; the
status is not accepted, carried with the body), the `TypeError` of reading a
property of `null` or `undefined` or of converting to a string an object whose
`toString` is not a function, and the `URIError` of `encodeURIComponent`. -/
inductive Failure where
  | transport (message : String)
  | badStatus (status : Nat) (body : JSValue)
  | typeError
  | uriError
  deriving Repr

mutual
/-- The `ToString` conversion of a value, as applied by template literals, by
`localStorage.setItem` and by `FormData.append` to a value that is not a binary
payload.  An array converts to the `join(",")` of its items.  An object
converts through its `toString`: an object that has a property of its own
under that name (never a function, in these values) throws a `TypeError`,
every other object converts to its class tag. -/
def toDOMString : JSValue → Except Failure String
  | .undefined => .ok "undefined"
  | .null => .ok "null"
  | .bool true => .ok "true"
  | .bool false => .ok "false"
  | .num text => .ok text
  | .str s => .ok s
  | .blob _ => .ok "[object Blob]"
  | .arr items =>
    match itemStrings items with
    | .error e => .error e
    | .ok strings => .ok (",".intercalate strings)
  | .obj fields =>
    if fields.any (fun field => field.1 = "toString") then .error .typeError
    else .ok "[object Object]"
/-- The renderings of the items of an array inside `join`: `null` and
`undefined` items render as the empty string, the others as their string
conversion, which may throw. -/
def itemStrings : List JSValue → Except Failure (List String)
  | [] => .ok []
  | .undefined :: rest =>
    match itemStrings rest with
    | .error e => .error e
    | .ok strings => .ok ("" :: strings)
  | .null :: rest =>
    match itemStrings rest with
    | .error e => .error e
    | .ok strings => .ok ("" :: strings)
  | item :: rest =>
    match toDOMString item with
    | .error e => .error e
    | .ok s =>
      match itemStrings rest with
      | .error e => .error e
      | .ok strings => .ok (s :: strings)
end

/-- The truthiness of a value (`ToBoolean`): `undefined`, `null`, `false`,
the numbers `0` and `NaN`, and the empty string are falsy; everything else,
every object included, is truthy. -/
def truthy : JSValue → Bool
  | .undefined => false
  | .null => false
  | .bool b => b
  | .num text => text != "0" && text != "NaN"
  | .str s => s != ""
  | .blob _ => true
  | .arr _ => true
  | .obj _ => true

/-! ## Client storage -/

/-- Client storage (`localStorage`): its entries in order, one per key. -/
structure Storage where
  entries : List (String × String)
  deriving DecidableEq, Repr

/-- The value held under a key among storage entries, if any. -/
def lookupEntry (key : String) : List (String × String) → Option String
  | [] => none
  | (k, v) :: rest => if k = key then some v else lookupEntry key rest

/-- The entries after writing a value under a key: the entry of the key is
overwritten in place when there is one and added at the end otherwise. -/
def storeEntry (key value : String) : List (String × String) → List (String × String)
  | [] => [(key, value)]
  | (k, v) :: rest =>
    if k = key then (k, value) :: rest else (k, v) :: storeEntry key value rest

/-- The call `localStorage.getItem(key)`: the stored string, or `none` for the
`null` returned when the key has no entry. -/
def Storage.getItem (localStorage : Storage) (key : String) : Option String :=
  lookupEntry key localStorage.entries

/-- The call `localStorage.setItem(key, value)`: the value is converted to a
string, which may throw, and the string is stored under the key. -/
def Storage.setItem (localStorage : Storage) (key : String) (value : JSValue) :
    Except Failure Storage :=
  match toDOMString value with
  | .error e => .error e
  | .ok s => .ok ⟨storeEntry key s localStorage.entries⟩

/-! ## Requests, responses and the network -/

/-- One entry value of a `FormData`: a string or a file. -/
inductive FormEntry where
  | text (s : String)
  | file (payload : Blob)
  deriving DecidableEq, Repr

/-- A `FormData` object: its entries in the order they were appended. -/
structure FormData where
  entries : List (String × FormEntry)
  deriving DecidableEq, Repr

/-- The form built by `new FormData()`. -/
def FormData.empty : FormData := ⟨[]⟩

/-- The call `form.append(name, value)`: a binary payload is appended as a
file with the same bytes, any other value as its string conversion, which may
throw. -/
def FormData.append (form : FormData) (name : String) (value : JSValue) :
    Except Failure FormData :=
  match value with
  | .blob payload => .ok ⟨form.entries ++ [(name, .file payload)]⟩
  | v =>
    match toDOMString v with
    | .error e => .error e
    | .ok s => .ok ⟨form.entries ++ [(name, .text s)]⟩

/-- The `data` of a request config: a plain value or a form. -/
inductive RequestData where
  | value (v : JSValue)
  | form (f : FormData)
  deriving Repr

/-- The headers of a request, by name. -/
abbrev Headers := List (String × String)

/-- The value of a header, if it is set. -/
def getHeader (name : String) : Headers → Option String
  | [] => none
  | (k, v) :: rest => if k = name then some v else getHeader name rest

/-- The assignment `headers[name] = value`: an existing header is overwritten,
a new one is added. -/
def setHeader (name value : String) : Headers → Headers
  | [] => [(name, value)]
  | (k, v) :: rest =>
    if k = name then (k, value) :: rest else (k, v) :: setHeader name value rest

/-- An axios request config. -/
structure Config where
  method : String
  url : String
  baseURL : String
  withCredentials : Bool
  headers : Headers
  data : RequestData
  deriving Repr

/-- What the network does with one request: the transport fails, or an HTTP
response with a status and a decoded body arrives. -/
inductive HttpResult where
  | networkError (message : String)
  | response (status : Nat) (body : JSValue)
  deriving Repr

/-- The behaviour of the network on the request an operation dispatches. -/
abbrev Network := Config → HttpResult

/-- The axios response object, as far as this layer reads it. -/
structure Response where
  status : Nat
  data : JSValue
  deriving Repr

/-- How axios settles the promise of a dispatched request: it resolves when
the response has no status (status 0) or a status its default
`validateStatus` accepts, from 200 to 299, and rejects otherwise, as it does
when the transport fails. -/
def settle : HttpResult → Except Failure Response
  | .networkError message => .error (.transport message)
  | .response status body =>
    if status = 0 ∨ (200 ≤ status ∧ status < 300) then .ok ⟨status, body⟩
    else .error (.badStatus status body)

/-- The world an operation runs in: client storage, and the requests handed to
the network so far, oldest first. -/
structure World where
  storage : Storage
  sent : List Config
  deriving Repr

/-- The settled promise of an operation, with the world it leaves. -/
abbrev Outcome := Except Failure JSValue × World

/-! ## The client (`api.js`, lines 1-12) -/

/-- The instance made by `axios.create`: an empty base URL, credentials sent
with every request, and the `Accept` header axios sends by default. -/
def api : Config :=
  { method := "get"
    url := ""
    baseURL := ""
    withCredentials := true
    headers := [("Accept", "application/json, text/plain, */*")]
    data := .value .undefined }

/-- The request interceptor: the token is read from storage and, when it is
truthy (neither `null` nor the empty string), the `Authorization` header of
the config is set to `Bearer ` followed by it; the config is returned. -/
def requestInterceptor (localStorage : Storage) (config : Config) : Config :=
  match localStorage.getItem "token" with
  | none => config
  | some token =>
    if token ≠ "" then
      { config with headers := setHeader "Authorization" ("Bearer " ++ token) config.headers }
    else config

/-- One request of the instance: the interceptor runs on the config, the
result is handed to the network, and the response is settled. -/
def request (config : Config) (net : Network) (w : World) :
    Except Failure Response × World :=
  let config := requestInterceptor w.storage config
  (settle (net config), { w with sent := w.sent ++ [config] })

/-- The call `api.get(url)`. -/
def api.get (url : String) (net : Network) (w : World) : Except Failure Response × World :=
  request { api with method := "get", url := url } net w

/-- The call `api.post(url, data)`. -/
def api.post (url : String) (data : RequestData) (net : Network) (w : World) :
    Except Failure Response × World :=
  request { api with method := "post", url := url, data := data } net w

/-! ## The operations (`api.js`, lines 14-59)

An error thrown in the body of an `async` function rejects its promise: a
conversion that throws before the request is built leaves the world as it
was. -/

/-- The property read `data.access_token`: a `TypeError` on `null` and
`undefined`, the value of the property on an object that has it, and
`undefined` on every other value. -/
def accessToken : JSValue → Except Failure JSValue
  | .undefined => .error .typeError
  | .null => .error .typeError
  | .obj fields =>
    match fields.find? (fun field => field.1 = "access_token") with
    | some field => .ok field.2
    | none => .ok .undefined
  | _ => .ok .undefined

/-- The operation `login(username, password)`. -/
def login (username password : JSValue) (net : Network) (w : World) : Outcome :=
  let form := FormData.empty
  match form.append "username" username with
  | .error e => (.error e, w)
  | .ok form =>
    match form.append "password" password with
    | .error e => (.error e, w)
    | .ok form =>
      match api.post "/api/auth/token" (.form form) net w with
      | (.error e, w) => (.error e, w)
      | (.ok response, w) =>
        let data := response.data
        match accessToken data with
        | .error e => (.error e, w)
        | .ok token =>
          match w.storage.setItem "token" token with
          | .error e => (.error e, w)
          | .ok storage => (.ok data, { w with storage := storage })

/-- The operation `register(payload)`. -/
def register (payload : JSValue) (net : Network) (w : World) : Outcome :=
  match api.post "/api/auth/register" (.value payload) net w with
  | (.error e, w) => (.error e, w)
  | (.ok response, w) => (.ok response.data, w)

/-- The operation `me()`. -/
def me (net : Network) (w : World) : Outcome :=
  match api.get "/api/auth/me" net w with
  | (.error e, w) => (.error e, w)
  | (.ok response, w) => (.ok response.data, w)

/-- The operation `feed()`. -/
def feed (net : Network) (w : World) : Outcome :=
  match api.get "/api/posts/feed/me" net w with
  | (.error e, w) => (.error e, w)
  | (.ok response, w) => (.ok response.data, w)

/-- The operation `createPost({ caption, file })`, on the two properties of its
argument (`undefined` for one that is absent). -/
def createPost (caption file : JSValue) (net : Network) (w : World) : Outcome :=
  let form := FormData.empty
  match form.append "caption" (if truthy caption then caption else .str "") with
  | .error e => (.error e, w)
  | .ok form =>
    match (if truthy file then form.append "image" file else .ok form) with
    | .error e => (.error e, w)
    | .ok form =>
      match api.post "/api/posts" (.form form) net w with
      | (.error e, w) => (.error e, w)
      | (.ok response, w) => (.ok response.data, w)

/-- The operation `like(postId)`. -/
def like (postId : JSValue) (net : Network) (w : World) : Outcome :=
  match toDOMString postId with
  | .error e => (.error e, w)
  | .ok id =>
    match api.post ("/api/likes/post/" ++ id) (.value .undefined) net w with
    | (.error e, w) => (.error e, w)
    | (.ok _, w) => (.ok .undefined, w)

/-- The operation `unlike(postId)`. -/
def unlike (postId : JSValue) (net : Network) (w : World) : Outcome :=
  match toDOMString postId with
  | .error e => (.error e, w)
  | .ok id =>
    match api.post ("/api/likes/post/" ++ id ++ "/unlike") (.value .undefined) net w with
    | (.error e, w) => (.error e, w)
    | (.ok _, w) => (.ok .undefined, w)

/-- The operation `userProfile(username)`. -/
def userProfile (username : JSValue) (net : Network) (w : World) : Outcome :=
  match toDOMString username with
  | .error e => (.error e, w)
  | .ok name =>
    match api.get ("/api/users/" ++ name) net w with
    | (.error e, w) => (.error e, w)
    | (.ok response, w) => (.ok response.data, w)

/-! ## `avatarUrl` and `encodeURIComponent`

`encodeURIComponent` reads its argument by UTF-16 code units and throws on a
surrogate that has no partner, so the string argument of `avatarUrl` is given
here by its code units (numbers below 65536). -/

/-- The code units `encodeURIComponent` leaves as they are: the ASCII letters
and digits and `- _ . ! ~ * ' ( )`. -/
def isUnreserved (n : Nat) : Bool :=
  (65 ≤ n && n ≤ 90) || (97 ≤ n && n ≤ 122) || (48 ≤ n && n ≤ 57) ||
    n = 45 || n = 95 || n = 46 || n = 33 || n = 126 || n = 42 || n = 39 || n = 40 || n = 41

/-- The UTF-8 encoding of a code point. -/
def utf8Bytes (n : Nat) : List Nat :=
  if n < 128 then [n]
  else if n < 2048 then [192 + n / 64, 128 + n % 64]
  else if n < 65536 then [224 + n / 4096, 128 + n / 64 % 64, 128 + n % 64]
  else [240 + n / 262144, 128 + n / 4096 % 64, 128 + n / 64 % 64, 128 + n % 64]

/-- The upper-case hexadecimal digit of a number below 16. -/
def hexDigit (n : Nat) : Char :=
  if n < 10 then Char.ofNat (48 + n) else Char.ofNat (55 + n)

/-- The escape `%XY` of one byte. -/
def percentEscape (byte : Nat) : List Char :=
  ['%', hexDigit (byte / 16), hexDigit (byte % 16)]

/-- The escapes of a sequence of bytes, in order. -/
def percentEscapes : List Nat → List Char
  | [] => []
  | byte :: rest => percentEscape byte ++ percentEscapes rest

/-- The encoding of a sequence of code units by `encodeURIComponent`: an
unreserved unit is kept; any other unit is read as a code point, together with
the low surrogate after it when it is a high surrogate, and replaced by the
escapes of the UTF-8 bytes of the code point; a surrogate without its partner
throws a `URIError`. -/
def encodeUnits : List Nat → Except Failure (List Char)
  | [] => .ok []
  | unit :: rest =>
    if isUnreserved unit then
      match encodeUnits rest with
      | .error e => .error e
      | .ok encoded => .ok (Char.ofNat unit :: encoded)
    else if 56320 ≤ unit ∧ unit ≤ 57343 then .error .uriError
    else if 55296 ≤ unit ∧ unit ≤ 56319 then
      match rest with
      | [] => .error .uriError
      | low :: rest =>
        if 56320 ≤ low ∧ low ≤ 57343 then
          match encodeUnits rest with
          | .error e => .error e
          | .ok encoded =>
            .ok (percentEscapes (utf8Bytes (65536 + (unit - 55296) * 1024 + (low - 56320)))
              ++ encoded)
        else .error .uriError
    else
      match encodeUnits rest with
      | .error e => .error e
      | .ok encoded => .ok (percentEscapes (utf8Bytes unit) ++ encoded)

/-- The platform function `encodeURIComponent` on a string given by its code
units. -/
def encodeURIComponent (units : List Nat) : Except Failure String :=
  match encodeUnits units with
  | .error e => .error e
  | .ok encoded => .ok (String.mk encoded)

/-- The function `avatarUrl(username)` on a string given by its code units. -/
def avatarUrl (username : List Nat) : Except Failure String :=
  match encodeURIComponent username with
  | .error e => .error e
  | .ok encoded => .ok ("https://api.dicebear.com/8.x/thumbs/svg?seed=" ++ encoded)

/-! ## Well-formed strings and their percent-encoding

A well-formed string is a sequence of Unicode scalar values, a `String`.  Its
percent-encoding and the decoding of a percent-encoded text are stated here
on scalar values, for comparison with `encodeURIComponent`. -/

/-- The UTF-16 code units of a sequence of characters: one unit for a
character below 65536, a surrogate pair for any other. -/
def unitsOf : List Char → List Nat
  | [] => []
  | c :: rest =>
    (if c.toNat < 65536 then [c.toNat]
      else [55296 + (c.toNat - 65536) / 1024, 56320 + (c.toNat - 65536) % 1024]) ++
      unitsOf rest

/-- The UTF-16 code units of a well-formed string. -/
def utf16 (s : String) : List Nat :=
  unitsOf s.data

/-- The percent-encoding of a sequence of characters: every character that is
not unreserved is replaced by the escapes `%XY` of the bytes of its UTF-8
encoding. -/
def percentEncodingChars : List Char → List Char
  | [] => []
  | c :: rest =>
    (if isUnreserved c.toNat then [c] else percentEscapes (utf8Bytes c.toNat)) ++
      percentEncodingChars rest

/-- The percent-encoding of a well-formed string. -/
def percentEncoding (u : String) : String :=
  String.mk (percentEncodingChars u.data)

/-- The value of an upper-case hexadecimal digit. -/
def hexValue (c : Char) : Option Nat :=
  if 48 ≤ c.toNat ∧ c.toNat ≤ 57 then some (c.toNat - 48)
  else if 65 ≤ c.toNat ∧ c.toNat ≤ 70 then some (c.toNat - 55)
  else none

/-- The bytes a percent-encoded text stands for: an escape `%XY` with two
upper-case hexadecimal digits stands for its byte, an unreserved character for
itself, and no other character may occur. -/
def unescape : List Char → Option (List Nat)
  | [] => some []
  | c :: rest =>
    if c = '%' then
      match rest with
      | high :: low :: rest =>
        match hexValue high, hexValue low, unescape rest with
        | some h, some l, some bytes => some ((16 * h + l) :: bytes)
        | _, _, _ => none
      | _ => none
    else if isUnreserved c.toNat then
      match unescape rest with
      | some bytes => some (c.toNat :: bytes)
      | none => none
    else none

/-- The code points a sequence of bytes is the UTF-8 encoding of, if it is one:
every code point in its shortest form, none of them a surrogate or above
1114111. -/
def utf8Decode : List Nat → Option (List Nat)
  | [] => some []
  | b0 :: rest =>
    if b0 < 128 then
      match utf8Decode rest with
      | some points => some (b0 :: points)
      | none => none
    else if b0 < 192 then none
    else if b0 < 224 then
      match rest with
      | b1 :: rest =>
        if 128 ≤ b1 ∧ b1 < 192 ∧ 128 ≤ (b0 - 192) * 64 + (b1 - 128) then
          match utf8Decode rest with
          | some points => some (((b0 - 192) * 64 + (b1 - 128)) :: points)
          | none => none
        else none
      | _ => none
    else if b0 < 240 then
      match rest with
      | b1 :: b2 :: rest =>
        if 128 ≤ b1 ∧ b1 < 192 ∧ 128 ≤ b2 ∧ b2 < 192 ∧
            2048 ≤ (b0 - 224) * 4096 + (b1 - 128) * 64 + (b2 - 128) ∧
            ¬ (55296 ≤ (b0 - 224) * 4096 + (b1 - 128) * 64 + (b2 - 128) ∧
              (b0 - 224) * 4096 + (b1 - 128) * 64 + (b2 - 128) ≤ 57343) then
          match utf8Decode rest with
          | some points => some (((b0 - 224) * 4096 + (b1 - 128) * 64 + (b2 - 128)) :: points)
          | none => none
        else none
      | _ => none
    else if b0 < 248 then
      match rest with
      | b1 :: b2 :: b3 :: rest =>
        if 128 ≤ b1 ∧ b1 < 192 ∧ 128 ≤ b2 ∧ b2 < 192 ∧ 128 ≤ b3 ∧ b3 < 192 ∧
            65536 ≤ (b0 - 240) * 262144 + (b1 - 128) * 4096 + (b2 - 128) * 64 + (b3 - 128) ∧
            (b0 - 240) * 262144 + (b1 - 128) * 4096 + (b2 - 128) * 64 + (b3 - 128) <
              1114112 then
          match utf8Decode rest with
          | some points =>
            some (((b0 - 240) * 262144 + (b1 - 128) * 4096 + (b2 - 128) * 64 + (b3 - 128)) ::
              points)
          | none => none
        else none
      | _ => none
    else none

/-- The UTF-8 encoding of a sequence of characters. -/
def utf8Of : List Char → List Nat
  | [] => []
  | c :: rest => utf8Bytes c.toNat ++ utf8Of rest

/-- The code points a percent-encoded text decodes to: its escapes are
resolved to bytes and the bytes read as UTF-8. -/
def percentDecoding (text : String) : Option (List Nat) :=
  match unescape text.data with
  | some bytes => utf8Decode bytes
  | none => none

/-! ## Calls of the network operations -/

/-- A call of one of the eight network operations, with its arguments. -/
inductive Call where
  | login (username password : JSValue)
  | register (payload : JSValue)
  | me
  | feed
  | createPost (caption file : JSValue)
  | like (postId : JSValue)
  | unlike (postId : JSValue)
  | userProfile (username : JSValue)
  deriving Repr

/-- Running a call: the operation it names, applied to its arguments. -/
def Call.run : Call → Network → World → Outcome
  | .login username password => ApiClient.login username password
  | .register payload => ApiClient.register payload
  | .me => ApiClient.me
  | .feed => ApiClient.feed
  | .createPost caption file => ApiClient.createPost caption file
  | .like postId => ApiClient.like postId
  | .unlike postId => ApiClient.unlike postId
  | .userProfile username => ApiClient.userProfile username

/-- Whether a call is a call of `login`. -/
def Call.isLogin : Call → Bool
  | .login _ _ => true
  | _ => false

/-- Running calls one after the other, each against the behaviour of the
network on its request; the results are dropped and the final world kept. -/
def runAll : List (Call × Network) → World → World
  | [], w => w
  | (c, net) :: rest, w => runAll rest (c.run net w).2

/-- The config a call builds for the client (the method, URL and data its
operation passes to `api.get` or `api.post`, over the instance defaults), or
the error thrown by a conversion of its arguments before there is a config. -/
def Call.request : Call → Except Failure Config
  | .login username password =>
    match FormData.empty.append "username" username with
    | .error e => .error e
    | .ok form =>
      match form.append "password" password with
      | .error e => .error e
      | .ok form => .ok { api with method := "post", url := "/api/auth/token", data := .form form }
  | .register payload =>
    .ok { api with method := "post", url := "/api/auth/register", data := .value payload }
  | .me => .ok { api with method := "get", url := "/api/auth/me" }
  | .feed => .ok { api with method := "get", url := "/api/posts/feed/me" }
  | .createPost caption file =>
    match FormData.empty.append "caption" (if truthy caption then caption else .str "") with
    | .error e => .error e
    | .ok form =>
      match (if truthy file then form.append "image" file else .ok form) with
      | .error e => .error e
      | .ok form => .ok { api with method := "post", url := "/api/posts", data := .form form }
  | .like postId =>
    match toDOMString postId with
    | .error e => .error e
    | .ok id =>
      .ok { api with method := "post", url := "/api/likes/post/" ++ id, data := .value .undefined }
  | .unlike postId =>
    match toDOMString postId with
    | .error e => .error e
    | .ok id =>
      .ok { api with
            method := "post"
            url := "/api/likes/post/" ++ id ++ "/unlike"
            data := .value .undefined }
  | .userProfile username =>
    match toDOMString username with
    | .error e => .error e
    | .ok name => .ok { api with method := "get", url := "/api/users/" ++ name }

/-- How the settled request of a call settles the call: a rejection rejects
it; on a response, `login` reads and stores the token and returns the body,
`like` and `unlike` return nothing, the others return the body. -/
def Call.finish (c : Call) : Except Failure Response × World → Outcome
  | (.error e, w) => (.error e, w)
  | (.ok response, w) =>
    match c with
    | .login _ _ =>
      match accessToken response.data with
      | .error e => (.error e, w)
      | .ok token =>
        match w.storage.setItem "token" token with
        | .error e => (.error e, w)
        | .ok storage => (.ok response.data, { w with storage := storage })
    | .like _ => (.ok .undefined, w)
    | .unlike _ => (.ok .undefined, w)
    | _ => (.ok response.data, w)

/-- The request a call puts on the wire in a world: the config it builds,
after the interceptor has run on the storage of that world.  (For a call that
throws before it has a config, and puts nothing on the wire, the bare instance
config stands in.) -/
def dispatched (c : Call) (w : World) : Config :=
  requestInterceptor w.storage
    (match c.request with
      | .ok config => config
      | .error _ => api)

/-- The `Authorization` header of a request, if it carries one. -/
def authorization (config : Config) : Option String :=
  getHeader "Authorization" config.headers

/-- Whether a call is of one of the six operations that return a value:
`login`, `register`, `me`, `feed`, `createPost` and `userProfile`. -/
def Call.returnsBody : Call → Bool
  | .like _ => false
  | .unlike _ => false
  | _ => true

/-- An optional string argument: `undefined` when it is absent. -/
def optionalString : Option String → JSValue
  | none => .undefined
  | some s => .str s

/-- An optional binary argument: `undefined` when it is absent. -/
def optionalFile : Option Blob → JSValue
  | none => .undefined
  | some payload => .blob payload

/-- The world of a page that has stored nothing and sent nothing. -/
def emptyWorld : World := ⟨⟨[]⟩, []⟩

/-- A network that answers every request with the given status and body. -/
def respond (status : Nat) (body : JSValue) : Network :=
  fun _ => .response status body

/-- A network on which every request fails in transport. -/
def unreachable (message : String) : Network :=
  fun _ => .networkError message

/-! ## Lemmas on the request pipeline -/

/-- Every call is the conversion of its arguments into a config, one request
on that config, and the settling of the call by the settled request. -/
theorem run_eq (c : Call) (net : Network) (w : World) :
    c.run net w =
      match c.request with
      | .error e => (.error e, w)
      | .ok config => c.finish (request config net w) := by
  cases c with
  | login username password =>
    simp only [Call.run, login, Call.request]
    cases FormData.empty.append "username" username with
    | error e => rfl
    | ok form =>
      simp only []
      cases form.append "password" password with
      | error e => rfl
      | ok form => rfl
  | register payload => rfl
  | me => rfl
  | feed => rfl
  | createPost caption file =>
    simp only [Call.run, createPost, Call.request]
    cases FormData.empty.append "caption" (if truthy caption then caption else .str "") with
    | error e => rfl
    | ok form =>
      simp only []
      cases (if truthy file then form.append "image" file else .ok form) with
      | error e => rfl
      | ok form => rfl
  | like postId =>
    simp only [Call.run, like, Call.request]
    cases toDOMString postId <;> rfl
  | unlike postId =>
    simp only [Call.run, unlike, Call.request]
    cases toDOMString postId <;> rfl
  | userProfile username =>
    simp only [Call.run, userProfile, Call.request]
    cases toDOMString username <;> rfl

/-- A call whose arguments throw is rejected with that error, in the world as
it was. -/
theorem run_of_throw (c : Call) (net : Network) (w : World) (e : Failure)
    (h : c.request = .error e) : c.run net w = (.error e, w) := by
  rw [run_eq, h]

/-- A call that builds a config is settled by the one request on it. -/
theorem run_of_request (c : Call) (net : Network) (w : World) (built : Config)
    (h : c.request = .ok built) : c.run net w = c.finish (request built net w) := by
  rw [run_eq, h]

theorem finish_sent (c : Call) (x : Except Failure Response × World) :
    (c.finish x).2.sent = x.2.sent := by
  obtain ⟨r, w⟩ := x
  cases r with
  | error e => rfl
  | ok response =>
    cases c with
    | login username password =>
      simp only [Call.finish]
      split
      · rfl
      · split <;> rfl
    | register _ => rfl
    | me => rfl
    | feed => rfl
    | createPost _ _ => rfl
    | like _ => rfl
    | unlike _ => rfl
    | userProfile _ => rfl

theorem finish_of_error (c : Call) (e : Failure) (w : World) :
    c.finish (.error e, w) = (.error e, w) := rfl

theorem finish_of_not_login (c : Call) (response : Response) (w : World)
    (hc : c.isLogin = false) :
    c.finish (.ok response, w) =
      (.ok (if c.returnsBody then response.data else .undefined), w) := by
  cases c <;> first | rfl | simp [Call.isLogin] at hc

/-- The request a call that builds a config puts on the wire. -/
theorem dispatched_of_request (c : Call) (w : World) (built : Config)
    (h : c.request = .ok built) : dispatched c w = requestInterceptor w.storage built := by
  simp only [dispatched, h]

/-- A call that builds a config dispatches exactly one request. -/
theorem run_sent_of_request (c : Call) (net : Network) (w : World) (built : Config)
    (h : c.request = .ok built) :
    (c.run net w).2.sent = w.sent ++ [requestInterceptor w.storage built] := by
  rw [run_of_request c net w built h, finish_sent]
  rfl

/-- A call whose request fails is rejected with that failure; the request is
logged and storage is as before. -/
theorem run_of_error (c : Call) (net : Network) (w : World) (built : Config) (f : Failure)
    (h : c.request = .ok built)
    (hfail : settle (net (requestInterceptor w.storage built)) = .error f) :
    c.run net w =
      (.error f, { w with sent := w.sent ++ [requestInterceptor w.storage built] }) := by
  rw [run_of_request c net w built h]
  simp only [request, hfail]
  rfl

/-- A call other than `login` whose request succeeds resolves, to the body of
the response or, for `like` and `unlike`, to nothing; the request is logged
and storage is as before. -/
theorem run_of_ok (c : Call) (net : Network) (w : World) (built : Config) (r : Response)
    (hc : c.isLogin = false) (h : c.request = .ok built)
    (hok : settle (net (requestInterceptor w.storage built)) = .ok r) :
    c.run net w =
      (.ok (if c.returnsBody then r.data else .undefined),
        { w with sent := w.sent ++ [requestInterceptor w.storage built] }) := by
  rw [run_of_request c net w built h]
  simp only [request, hok]
  exact finish_of_not_login c r _ hc

/-- A login whose request succeeds, with a body whose `access_token` can be
read and converted to a string, stores that string and resolves to the body. -/
theorem login_of_ok (username password : JSValue) (net : Network) (w : World)
    (built : Config) (r : Response) (token : JSValue) (t : String)
    (h : Call.request (.login username password) = .ok built)
    (hok : settle (net (requestInterceptor w.storage built)) = .ok r)
    (htoken : accessToken r.data = .ok token) (ht : toDOMString token = .ok t) :
    login username password net w =
      (.ok r.data,
        { storage := ⟨storeEntry "token" t w.storage.entries⟩
          sent := w.sent ++ [requestInterceptor w.storage built] }) := by
  have hrun := run_of_request (.login username password) net w built h
  simp only [Call.run] at hrun
  rw [hrun]
  simp only [request, hok, Call.finish, htoken, Storage.setItem, ht]

/-- A login whose request succeeds is rejected when reading `access_token`
throws; storage is as before. -/
theorem login_of_ok_unreadable (username password : JSValue) (net : Network) (w : World)
    (built : Config) (r : Response) (e : Failure)
    (h : Call.request (.login username password) = .ok built)
    (hok : settle (net (requestInterceptor w.storage built)) = .ok r)
    (htoken : accessToken r.data = .error e) :
    login username password net w =
      (.error e, { w with sent := w.sent ++ [requestInterceptor w.storage built] }) := by
  have hrun := run_of_request (.login username password) net w built h
  simp only [Call.run] at hrun
  rw [hrun]
  simp only [request, hok, Call.finish, htoken]

/-- A login whose request succeeds is rejected when converting `access_token`
to a string throws; storage is as before. -/
theorem login_of_ok_unconvertible (username password : JSValue) (net : Network) (w : World)
    (built : Config) (r : Response) (token : JSValue) (e : Failure)
    (h : Call.request (.login username password) = .ok built)
    (hok : settle (net (requestInterceptor w.storage built)) = .ok r)
    (htoken : accessToken r.data = .ok token) (ht : toDOMString token = .error e) :
    login username password net w =
      (.error e, { w with sent := w.sent ++ [requestInterceptor w.storage built] }) := by
  have hrun := run_of_request (.login username password) net w built h
  simp only [Call.run] at hrun
  rw [hrun]
  simp only [request, hok, Call.finish, htoken, Storage.setItem, ht]

/-- What a call does: it is rejected and storage is as it was, or it is a call
other than `login` that resolves and storage is as it was, or it is a login
that resolves to the body of its response and has stored under `token` the
string conversion of the `access_token` of that body. -/
theorem run_cases (c : Call) (net : Network) (w : World) :
    (∃ e, (c.run net w).1 = .error e ∧ (c.run net w).2.storage = w.storage) ∨
    (c.isLogin = false ∧ (∃ value, (c.run net w).1 = .ok value) ∧
      (c.run net w).2.storage = w.storage) ∨
    (c.isLogin = true ∧ ∃ body token t,
      (c.run net w).1 = .ok body ∧ accessToken body = .ok token ∧
      toDOMString token = .ok t ∧
      (c.run net w).2.storage = ⟨storeEntry "token" t w.storage.entries⟩) := by
  cases hreq : c.request with
  | error e =>
    left
    rw [run_of_throw c net w e hreq]
    exact ⟨e, rfl, rfl⟩
  | ok built =>
    cases hs : settle (net (requestInterceptor w.storage built)) with
    | error f =>
      left
      rw [run_of_error c net w built f hreq hs]
      exact ⟨f, rfl, rfl⟩
    | ok r =>
      cases hc : c.isLogin with
      | false =>
        right
        left
        rw [run_of_ok c net w built r hc hreq hs]
        exact ⟨rfl, ⟨_, rfl⟩, rfl⟩
      | true =>
        cases c with
        | login username password =>
          simp only [Call.run]
          cases htoken : accessToken r.data with
          | error e =>
            left
            rw [login_of_ok_unreadable username password net w built r e hreq hs htoken]
            exact ⟨e, rfl, rfl⟩
          | ok token =>
            cases ht : toDOMString token with
            | error e =>
              left
              rw [login_of_ok_unconvertible username password net w built r token e hreq hs
                htoken ht]
              exact ⟨e, rfl, rfl⟩
            | ok t =>
              right
              right
              rw [login_of_ok username password net w built r token t hreq hs htoken ht]
              exact ⟨trivial, r.data, token, t, rfl, htoken, ht, rfl⟩
        | register _ => simp [Call.isLogin] at hc
        | me => simp [Call.isLogin] at hc
        | feed => simp [Call.isLogin] at hc
        | createPost _ _ => simp [Call.isLogin] at hc
        | like _ => simp [Call.isLogin] at hc
        | unlike _ => simp [Call.isLogin] at hc
        | userProfile _ => simp [Call.isLogin] at hc

/-- A call other than `login` leaves storage as it was. -/
theorem run_storage_of_not_login (c : Call) (net : Network) (w : World)
    (hc : c.isLogin = false) : (c.run net w).2.storage = w.storage := by
  rcases run_cases c net w with ⟨_, _, h⟩ | ⟨_, _, h⟩ | ⟨hlogin, _⟩
  · exact h
  · exact h
  · rw [hc] at hlogin
    cases hlogin

/-- Calls none of which is a `login` leave storage as it was. -/
theorem runAll_storage (calls : List (Call × Network)) (w : World)
    (h : ∀ x ∈ calls, x.1.isLogin = false) : (runAll calls w).storage = w.storage := by
  induction calls generalizing w with
  | nil => rfl
  | cons x rest ih =>
    obtain ⟨c, net⟩ := x
    have hc : c.isLogin = false := h (c, net) (List.mem_cons_self _ _)
    have hrest : ∀ y ∈ rest, y.1.isLogin = false :=
      fun y hy => h y (List.mem_cons_of_mem _ hy)
    simp only [runAll]
    rw [ih _ hrest, run_storage_of_not_login c net w hc]

/-! ## Lemmas on headers and storage -/

theorem getHeader_setHeader_self (name value : String) (headers : Headers) :
    getHeader name (setHeader name value headers) = some value := by
  induction headers with
  | nil => simp [setHeader, getHeader]
  | cons entry rest ih =>
    obtain ⟨k, v⟩ := entry
    by_cases hk : k = name <;> simp [setHeader, getHeader, hk, ih]

theorem getHeader_setHeader_of_ne (name other value : String) (headers : Headers)
    (hne : other ≠ name) :
    getHeader other (setHeader name value headers) = getHeader other headers := by
  induction headers with
  | nil => simp [setHeader, getHeader, Ne.symm hne]
  | cons entry rest ih =>
    obtain ⟨k, v⟩ := entry
    by_cases hk : k = name
    · subst hk
      simp [setHeader, getHeader, Ne.symm hne]
    · by_cases hk' : k = other
      · subst hk'
        simp [setHeader, getHeader, hne]
      · simp [setHeader, getHeader, hk, hk', ih]

theorem lookupEntry_storeEntry_self (key value : String) (entries : List (String × String)) :
    lookupEntry key (storeEntry key value entries) = some value := by
  induction entries with
  | nil => simp [storeEntry, lookupEntry]
  | cons entry rest ih =>
    obtain ⟨k, v⟩ := entry
    by_cases hk : k = key <;> simp [storeEntry, lookupEntry, hk, ih]

theorem lookupEntry_storeEntry_of_ne (key other value : String)
    (entries : List (String × String)) (hne : other ≠ key) :
    lookupEntry other (storeEntry key value entries) = lookupEntry other entries := by
  induction entries with
  | nil => simp [storeEntry, lookupEntry, Ne.symm hne]
  | cons entry rest ih =>
    obtain ⟨k, v⟩ := entry
    by_cases hk : k = key
    · subst hk
      simp [storeEntry, lookupEntry, Ne.symm hne]
    · by_cases hk' : k = other
      · subst hk'
        simp [storeEntry, lookupEntry, hne]
      · simp [storeEntry, lookupEntry, hk, hk', ih]

theorem getItem_storeEntry_self (key value : String) (entries : List (String × String)) :
    (Storage.mk (storeEntry key value entries)).getItem key = some value :=
  lookupEntry_storeEntry_self key value entries

theorem getItem_storeEntry_of_ne (key other value : String) (entries : List (String × String))
    (hne : other ≠ key) :
    (Storage.mk (storeEntry key value entries)).getItem other = lookupEntry other entries :=
  lookupEntry_storeEntry_of_ne key other value entries hne

/-! ## Lemmas on the interceptor and the settling of requests -/

/-- The interceptor returns the config it is given when storage has no token. -/
theorem requestInterceptor_of_none (s : Storage) (config : Config)
    (h : s.getItem "token" = none) : requestInterceptor s config = config := by
  simp [requestInterceptor, h]

/-- The header the interceptor sets when storage has a token that is not the
empty string. -/
theorem authorization_of_token (s : Storage) (config : Config) (t : String)
    (h : s.getItem "token" = some t) (ht : t ≠ "") :
    authorization (requestInterceptor s config) = some ("Bearer " ++ t) := by
  simp [authorization, requestInterceptor, h, ht, getHeader_setHeader_self]

/-- The interceptor changes nothing of a config but its `Authorization`
header. -/
theorem requestInterceptor_frame (s : Storage) (config : Config) :
    (requestInterceptor s config).method = config.method ∧
    (requestInterceptor s config).url = config.url ∧
    (requestInterceptor s config).baseURL = config.baseURL ∧
    (requestInterceptor s config).withCredentials = config.withCredentials ∧
    (requestInterceptor s config).data = config.data ∧
    ∀ name, name ≠ "Authorization" →
      getHeader name (requestInterceptor s config).headers = getHeader name config.headers := by
  unfold requestInterceptor
  split
  · simp
  · split
    · refine ⟨rfl, rfl, rfl, rfl, rfl, ?_⟩
      intro name hname
      exact getHeader_setHeader_of_ne "Authorization" name _ _ hname
    · simp

/-- A config built by a call carries the headers of the instance. -/
theorem request_headers (c : Call) (built : Config) (h : c.request = .ok built) :
    built.headers = api.headers := by
  cases c with
  | login username password =>
    simp only [Call.request] at h
    split at h
    · cases h
    · split at h
      · cases h
      · cases h
        rfl
  | register payload =>
    cases h
    rfl
  | me =>
    cases h
    rfl
  | feed =>
    cases h
    rfl
  | createPost caption file =>
    simp only [Call.request] at h
    split at h
    · cases h
    · split at h
      · cases h
      · cases h
        rfl
  | like postId =>
    simp only [Call.request] at h
    split at h
    · cases h
    · cases h
      rfl
  | unlike postId =>
    simp only [Call.request] at h
    split at h
    · cases h
    · cases h
      rfl
  | userProfile username =>
    simp only [Call.request] at h
    split at h
    · cases h
    · cases h
      rfl

/-- A config built by a call carries no `Authorization` header. -/
theorem authorization_of_request (c : Call) (built : Config) (h : c.request = .ok built) :
    authorization built = none := by
  rw [authorization, request_headers c built h]
  rfl

/-- A response with a status from 200 to 299 resolves the request. -/
theorem settle_of_success (status : Nat) (body : JSValue)
    (h : 200 ≤ status ∧ status < 300) :
    settle (.response status body) = .ok ⟨status, body⟩ := by
  simp [settle, h]

/-- A response with any other status but 0 rejects the request, with the
status and the body. -/
theorem settle_of_bad_status (status : Nat) (body : JSValue) (hzero : status ≠ 0)
    (h : ¬ (200 ≤ status ∧ status < 300)) :
    settle (.response status body) = .error (.badStatus status body) := by
  simp only [settle, hzero, h, or_self, if_false]

/-- The property read succeeds on every body but `null` and `undefined`. -/
theorem accessToken_ok (body : JSValue) (hnull : body ≠ .null)
    (hundefined : body ≠ .undefined) : ∃ token, accessToken body = .ok token := by
  cases body with
  | undefined => exact absurd rfl hundefined
  | null => exact absurd rfl hnull
  | obj fields =>
    simp only [accessToken]
    split <;> exact ⟨_, rfl⟩
  | bool b => exact ⟨_, rfl⟩
  | num text => exact ⟨_, rfl⟩
  | str s => exact ⟨_, rfl⟩
  | blob payload => exact ⟨_, rfl⟩
  | arr items => exact ⟨_, rfl⟩

/-! ## The request interceptor -/

/-- C1, as stated, fails: storage holds an entry under the key `token` whose
value is the empty string, and the interceptor returns the config without an
`Authorization` header. -/
theorem interceptor_empty_token_counterexample :
    (Storage.mk [("token", "")]).getItem "token" = some "" ∧
    authorization (requestInterceptor (Storage.mk [("token", "")]) api) = none := by
  decide

/-- C1, amended: for every storage state whose entry under the key `token` is
a string `t` other than the empty string, and every request config, the
interceptor returns a config whose `Authorization` header is exactly `Bearer `
followed by `t`. -/
theorem interceptor_sets_bearer (s : Storage) (t : String) (config : Config)
    (h : s.getItem "token" = some t) (ht : t ≠ "") :
    authorization (requestInterceptor s config) = some ("Bearer " ++ t) :=
  authorization_of_token s config t h ht

theorem interceptor_sets_bearer_witness :
    authorization (requestInterceptor (Storage.mk [("lang", "uk"), ("token", "abc")]) api) =
      some "Bearer abc" :=
  interceptor_sets_bearer (Storage.mk [("lang", "uk"), ("token", "abc")]) "abc" api
    (by decide) (by decide)

/-- C3: when storage holds no entry under the key `token` the interceptor
returns the config it was given, and a call on such storage sends one request
without an `Authorization` header (or none at all, when the conversion of its
arguments throws); and in every case the interceptor leaves the method, URL,
base URL, credentials flag, data and every header other than `Authorization`
as they were. -/
theorem interceptor_frame (s : Storage) (config : Config) (c : Call) (net : Network)
    (w : World) :
    (s.getItem "token" = none → requestInterceptor s config = config) ∧
    (w.storage.getItem "token" = none →
      (∀ built, c.request = .ok built →
        (c.run net w).2.sent = w.sent ++ [requestInterceptor w.storage built] ∧
        authorization (requestInterceptor w.storage built) = none) ∧
      (∀ e, c.request = .error e → (c.run net w).2.sent = w.sent)) ∧
    (requestInterceptor s config).method = config.method ∧
    (requestInterceptor s config).url = config.url ∧
    (requestInterceptor s config).baseURL = config.baseURL ∧
    (requestInterceptor s config).withCredentials = config.withCredentials ∧
    (requestInterceptor s config).data = config.data ∧
    ∀ name, name ≠ "Authorization" →
      getHeader name (requestInterceptor s config).headers = getHeader name config.headers := by
  refine ⟨requestInterceptor_of_none s config, ?_, requestInterceptor_frame s config⟩
  intro h
  refine ⟨?_, ?_⟩
  · intro built hbuilt
    refine ⟨run_sent_of_request c net w built hbuilt, ?_⟩
    rw [requestInterceptor_of_none _ _ h]
    exact authorization_of_request c built hbuilt
  · intro e he
    rw [run_of_throw c net w e he]

theorem interceptor_frame_witness :
    requestInterceptor (Storage.mk [("lang", "uk")]) api = api ∧
    ((Call.run (.userProfile (.str "bob")) (respond 200 .null) emptyWorld).2.sent =
        emptyWorld.sent ++
          [requestInterceptor emptyWorld.storage
            { api with method := "get", url := "/api/users/bob" }] ∧
      authorization
          (requestInterceptor emptyWorld.storage
            { api with method := "get", url := "/api/users/bob" }) = none) ∧
    (Call.run (.like (.obj [("toString", .num "1")])) (respond 200 .null) emptyWorld).2.sent =
      emptyWorld.sent :=
  ⟨(interceptor_frame (Storage.mk [("lang", "uk")]) api (.userProfile (.str "bob"))
      (respond 200 .null) emptyWorld).1 (by decide),
    ((interceptor_frame (Storage.mk [("lang", "uk")]) api (.userProfile (.str "bob"))
      (respond 200 .null) emptyWorld).2.1 (by decide)).1
      { api with method := "get", url := "/api/users/bob" } rfl,
    ((interceptor_frame (Storage.mk [("lang", "uk")]) api
      (.like (.obj [("toString", .num "1")])) (respond 200 .null) emptyWorld).2.1
      (by decide)).2 .typeError rfl⟩

/-! ## The token after a login -/

/-- C2, as stated, fails: a login succeeds with the response body
`{"access_token": ""}`, and the request of the `me` call that follows carries
no `Authorization` header. -/
theorem login_empty_token_counterexample :
    (login (.str "bob") (.str "pw") (respond 200 (.obj [("access_token", .str "")]))
        emptyWorld).1 = .ok (.obj [("access_token", .str "")]) ∧
    accessToken (.obj [("access_token", .str "")]) = .ok (.str "") ∧
    (Call.me.run (respond 200 .null)
        (login (.str "bob") (.str "pw") (respond 200 (.obj [("access_token", .str "")]))
          emptyWorld).2).2.sent.map authorization = [none, none] :=
  ⟨rfl, rfl, by decide⟩

/-- C2, amended: for every login that resolves to a response body, with `t`
the string conversion of the `access_token` of that body (the `access_token`
itself when it is a string) and `t` not the empty string, every call (of any
of the eight operations) issued after it with no other login in between sends
its request with the header `Authorization` set to `Bearer ` followed by
`t`. -/
theorem bearer_after_login (username password : JSValue) (net : Network) (w : World)
    (body token : JSValue) (t : String)
    (hlogin : (login username password net w).1 = .ok body)
    (htoken : accessToken body = .ok token) (ht : toDOMString token = .ok t) (hne : t ≠ "")
    (between : List (Call × Network)) (hbetween : ∀ x ∈ between, x.1.isLogin = false)
    (c : Call) (net' : Network) (built : Config) (hbuilt : c.request = .ok built) :
    (c.run net' (runAll between (login username password net w).2)).2.sent =
      (runAll between (login username password net w).2).sent ++
        [requestInterceptor (runAll between (login username password net w).2).storage
          built] ∧
    authorization
        (requestInterceptor (runAll between (login username password net w).2).storage
          built) =
      some ("Bearer " ++ t) := by
  refine ⟨run_sent_of_request c net' _ built hbuilt, ?_⟩
  apply authorization_of_token _ _ t _ hne
  rw [runAll_storage between _ hbetween]
  have hcases := run_cases (.login username password) net w
  simp only [Call.run] at hcases
  rcases hcases with ⟨e, he, _⟩ | ⟨hc, _⟩ | ⟨_, body', token', t', hbody, htoken', ht', hstorage⟩
  · rw [he] at hlogin
    cases hlogin
  · cases hc
  · rw [hbody] at hlogin
    cases hlogin
    rw [htoken] at htoken'
    cases htoken'
    rw [ht] at ht'
    cases ht'
    rw [hstorage]
    exact getItem_storeEntry_self "token" t w.storage.entries

theorem bearer_after_login_witness :
    authorization
        (requestInterceptor
          (runAll [(.feed, unreachable "offline"), (.me, respond 200 .null)]
            (login (.str "bob") (.str "pw") (respond 200 (.obj [("access_token", .str "abc")]))
              emptyWorld).2).storage
          { api with method := "post", url := "/api/likes/post/7", data := .value .undefined }) =
      some "Bearer abc" :=
  (bearer_after_login (.str "bob") (.str "pw")
    (respond 200 (.obj [("access_token", .str "abc")])) emptyWorld
    (.obj [("access_token", .str "abc")]) (.str "abc") "abc" rfl rfl rfl (by decide)
    [(.feed, unreachable "offline"), (.me, respond 200 .null)]
    (by simp [Call.isLogin]) (.like (.str "7")) (respond 200 .null)
    { api with method := "post", url := "/api/likes/post/7", data := .value .undefined }
    rfl).2

/-! ## `createPost` -/

/-- C5: for every caption (a string or absent) and every file (a binary
payload or absent), `createPost` dispatches one request, a POST to
`/api/posts` whose data is a form with the entries, in order: one `caption`
entry holding the caption, or the empty string when the caption is absent,
and, exactly when a file is given, one `image` entry holding that file. -/
theorem createPost_form (caption : Option String) (file : Option Blob) (net : Network)
    (w : World) :
    ∃ config,
      (createPost (optionalString caption) (optionalFile file) net w).2.sent =
        w.sent ++ [config] ∧
      config.method = "post" ∧
      config.url = "/api/posts" ∧
      config.data =
        .form ⟨("caption", .text (caption.getD "")) ::
          (match file with
            | none => []
            | some payload => [("image", .file payload)])⟩ := by
  have hbuilt : ∃ built,
      Call.request (.createPost (optionalString caption) (optionalFile file)) = .ok built ∧
      built.method = "post" ∧ built.url = "/api/posts" ∧
      built.data =
        .form ⟨("caption", .text (caption.getD "")) ::
          (match file with
            | none => []
            | some payload => [("image", .file payload)])⟩ := by
    cases caption with
    | none => cases file <;> exact ⟨_, rfl, rfl, rfl, rfl⟩
    | some s =>
      by_cases hs : s = ""
      · subst hs
        cases file <;> exact ⟨_, rfl, rfl, rfl, rfl⟩
      · cases file <;>
          simp [Call.request, optionalString, optionalFile, truthy, hs, FormData.append,
            FormData.empty, toDOMString]
  obtain ⟨built, hreq, hmethod, hurl, hdata⟩ := hbuilt
  have hsent := run_sent_of_request _ net w built hreq
  simp only [Call.run] at hsent
  refine ⟨requestInterceptor w.storage built, hsent, ?_, ?_, ?_⟩
  · rw [(requestInterceptor_frame _ _).1, hmethod]
  · rw [(requestInterceptor_frame _ _).2.1, hurl]
  · rw [(requestInterceptor_frame _ _).2.2.2.2.1, hdata]

/-! ## `like` and `unlike` -/

/-- C6: for every post identifier `p`, `like(p)` dispatches one request, a POST
to `/api/likes/post/` followed by `p`, and `unlike(p)` one request that is the
request of `like(p)` with `/unlike` appended to its URL and nothing else
changed; the two URLs are distinct; and each operation resolves to
`undefined` on a successful response, whatever its body. -/
theorem like_unlike_requests (p : String) (net : Network) (w : World) :
    (like (.str p) net w).2.sent = w.sent ++ [dispatched (.like (.str p)) w] ∧
    (unlike (.str p) net w).2.sent = w.sent ++ [dispatched (.unlike (.str p)) w] ∧
    (dispatched (.like (.str p)) w).method = "post" ∧
    (dispatched (.like (.str p)) w).url = "/api/likes/post/" ++ p ∧
    dispatched (.unlike (.str p)) w =
      { dispatched (.like (.str p)) w with
        url := (dispatched (.like (.str p)) w).url ++ "/unlike" } ∧
    (dispatched (.like (.str p)) w).url ≠ (dispatched (.unlike (.str p)) w).url ∧
    (∀ status body, net (dispatched (.like (.str p)) w) = .response status body →
      200 ≤ status ∧ status < 300 → (like (.str p) net w).1 = .ok .undefined) ∧
    (∀ status body, net (dispatched (.unlike (.str p)) w) = .response status body →
      200 ≤ status ∧ status < 300 → (unlike (.str p) net w).1 = .ok .undefined) := by
  have hlike : Call.request (.like (.str p)) =
      .ok { api with method := "post", url := "/api/likes/post/" ++ p,
                     data := .value .undefined } := rfl
  have hunlike : Call.request (.unlike (.str p)) =
      .ok { api with method := "post", url := "/api/likes/post/" ++ p ++ "/unlike",
                     data := .value .undefined } := rfl
  have hsentLike := run_sent_of_request (.like (.str p)) net w _ hlike
  have hsentUnlike := run_sent_of_request (.unlike (.str p)) net w _ hunlike
  simp only [Call.run] at hsentLike hsentUnlike
  rw [dispatched_of_request _ w _ hlike, dispatched_of_request _ w _ hunlike]
  refine ⟨hsentLike, hsentUnlike, (requestInterceptor_frame _ _).1,
    (requestInterceptor_frame _ _).2.1, ?_, ?_, ?_, ?_⟩
  · simp only [requestInterceptor]
    split
    · rfl
    · split <;> rfl
  · rw [(requestInterceptor_frame _ _).2.1, (requestInterceptor_frame _ _).2.1]
    intro h
    have hlen := congrArg String.length h
    simp only [String.length_append] at hlen
    have hsuffix : "/unlike".length = 7 := by decide
    omega
  · intro status body hnet hstatus
    have hok : settle (net (requestInterceptor w.storage
        { api with method := "post", url := "/api/likes/post/" ++ p,
                   data := .value .undefined })) = .ok ⟨status, body⟩ := by
      rw [hnet]
      exact settle_of_success status body hstatus
    have hrun := run_of_ok (.like (.str p)) net w _ ⟨status, body⟩ rfl hlike hok
    simp only [Call.run] at hrun
    rw [hrun]
    rfl
  · intro status body hnet hstatus
    have hok : settle (net (requestInterceptor w.storage
        { api with method := "post", url := "/api/likes/post/" ++ p ++ "/unlike",
                   data := .value .undefined })) = .ok ⟨status, body⟩ := by
      rw [hnet]
      exact settle_of_success status body hstatus
    have hrun := run_of_ok (.unlike (.str p)) net w _ ⟨status, body⟩ rfl hunlike hok
    simp only [Call.run] at hrun
    rw [hrun]
    rfl

theorem like_unlike_requests_witness :
    (like (.str "42") (respond 204 (.str "")) emptyWorld).1 = .ok .undefined ∧
    (unlike (.str "42") (respond 200 (.obj [("likes", .num "3")])) emptyWorld).1 =
      .ok .undefined :=
  ⟨(like_unlike_requests "42" (respond 204 (.str "")) emptyWorld).2.2.2.2.2.2.1 204 (.str "")
      rfl (by decide),
    (like_unlike_requests "42" (respond 200 (.obj [("likes", .num "3")]))
      emptyWorld).2.2.2.2.2.2.2 200 (.obj [("likes", .num "3")]) rfl (by decide)⟩

/-- C10: the post identifier goes into the path as it is, so the URLs of
`like` and `unlike` overlap: `like("1/unlike")` and `unlike("1")`, two
different identifiers, dispatch the same request, to the URL
`/api/likes/post/1/unlike`. -/
theorem like_unlike_urls_overlap (net : Network) (w : World) :
    (∀ p : String, (dispatched (.like (.str p)) w).url = "/api/likes/post/" ++ p) ∧
    (∃ p q : String, p ≠ q ∧
      (dispatched (.like (.str p)) w).url = (dispatched (.unlike (.str q)) w).url) ∧
    "1/unlike" ≠ "1" ∧
    (dispatched (.like (.str "1/unlike")) w).url = "/api/likes/post/1/unlike" ∧
    (dispatched (.unlike (.str "1")) w).url = "/api/likes/post/1/unlike" ∧
    (like (.str "1/unlike") net w).2.sent = (unlike (.str "1") net w).2.sent := by
  have hlike : (dispatched (.like (.str "1/unlike")) w).url = "/api/likes/post/1/unlike" :=
    (requestInterceptor_frame _ _).2.1
  have hunlike : (dispatched (.unlike (.str "1")) w).url = "/api/likes/post/1/unlike" :=
    (requestInterceptor_frame _ _).2.1
  refine ⟨fun p => (requestInterceptor_frame _ _).2.1,
    ⟨"1/unlike", "1", by decide, hlike.trans hunlike.symm⟩, by decide, hlike, hunlike, ?_⟩
  have h1 := run_sent_of_request (.like (.str "1/unlike")) net w _ rfl
  have h2 := run_sent_of_request (.unlike (.str "1")) net w _ rfl
  simp only [Call.run] at h1 h2
  rw [h1, h2]
  rfl

/-! ## Failures -/

/-- C7: a call that has built its config issues exactly one request, and when
the HTTP call of that request fails, the call is rejected with exactly that
failure: whatever failure the client settles the request with, which is the
transport failure when the transport fails, and the status and body of the
response when a response arrives with a status other than 0 and 200 to 299. -/
theorem failure_propagates (c : Call) (net : Network) (w : World) (built : Config)
    (hbuilt : c.request = .ok built) :
    (c.run net w).2.sent = w.sent ++ [requestInterceptor w.storage built] ∧
    (∀ f, settle (net (requestInterceptor w.storage built)) = .error f →
      (c.run net w).1 = .error f) ∧
    (∀ message, net (requestInterceptor w.storage built) = .networkError message →
      (c.run net w).1 = .error (.transport message)) ∧
    (∀ status body, net (requestInterceptor w.storage built) = .response status body →
      status ≠ 0 → ¬ (200 ≤ status ∧ status < 300) →
      (c.run net w).1 = .error (.badStatus status body)) := by
  refine ⟨run_sent_of_request c net w built hbuilt, ?_, ?_, ?_⟩
  · intro f hfail
    rw [run_of_error c net w built f hbuilt hfail]
  · intro message hnet
    have hfail : settle (net (requestInterceptor w.storage built)) =
        .error (.transport message) := by
      rw [hnet]
      rfl
    rw [run_of_error c net w built _ hbuilt hfail]
  · intro status body hnet hzero hstatus
    have hfail : settle (net (requestInterceptor w.storage built)) =
        .error (.badStatus status body) := by
      rw [hnet]
      exact settle_of_bad_status status body hzero hstatus
    rw [run_of_error c net w built _ hbuilt hfail]

theorem failure_propagates_witness :
    (Call.run (.userProfile (.str "bob")) (unreachable "offline") emptyWorld).2.sent =
      emptyWorld.sent ++
        [requestInterceptor emptyWorld.storage
          { api with method := "get", url := "/api/users/bob" }] ∧
    (Call.run (.userProfile (.str "bob")) (unreachable "offline") emptyWorld).1 =
      .error (.transport "offline") ∧
    (Call.run (.register (.obj [("username", .str "bob")]))
        (respond 422 (.obj [("detail", .str "taken")])) emptyWorld).1 =
      .error (.badStatus 422 (.obj [("detail", .str "taken")])) :=
  ⟨(failure_propagates (.userProfile (.str "bob")) (unreachable "offline") emptyWorld
      { api with method := "get", url := "/api/users/bob" } rfl).1,
    (failure_propagates (.userProfile (.str "bob")) (unreachable "offline") emptyWorld
      { api with method := "get", url := "/api/users/bob" } rfl).2.2.1 "offline" rfl,
    (failure_propagates (.register (.obj [("username", .str "bob")]))
      (respond 422 (.obj [("detail", .str "taken")])) emptyWorld
      { api with
        method := "post"
        url := "/api/auth/register"
        data := .value (.obj [("username", .str "bob")]) }
      rfl).2.2.2 422 (.obj [("detail", .str "taken")]) rfl (by decide) (by decide)⟩

/-! ## Storage -/

/-- C8: storage is written only by a login that succeeds.  A request of the
client (the interceptor included) leaves storage as it was; so does every
call other than `login`, whether it resolves or is rejected; so does every
call that is rejected, a login whose HTTP request fails or that fails after
its response among them; a call whose storage differs afterwards is a login
that resolved, and storage then is the storage before with one string written
under the key `token`: the entries under other keys are as they were, and an
entry under `token` is set, never removed.  (`avatarUrl` takes no storage and
returns none.) -/
theorem storage_written_only_by_login (c : Call) (net : Network) (w : World)
    (config : Config) :
    (request config net w).2.storage = w.storage ∧
    (c.isLogin = false → (c.run net w).2.storage = w.storage) ∧
    (∀ e, (c.run net w).1 = .error e → (c.run net w).2.storage = w.storage) ∧
    (∀ built f, c.request = .ok built →
      settle (net (requestInterceptor w.storage built)) = .error f →
      (c.run net w).2.storage = w.storage) ∧
    ((c.run net w).2.storage = w.storage ∨
      (c.isLogin = true ∧ ∃ body t, (c.run net w).1 = .ok body ∧
        (c.run net w).2.storage = ⟨storeEntry "token" t w.storage.entries⟩)) ∧
    (∀ key, key ≠ "token" →
      (c.run net w).2.storage.getItem key = w.storage.getItem key) ∧
    ((w.storage.getItem "token").isSome = true →
      ((c.run net w).2.storage.getItem "token").isSome = true) ∧
    (c.isLogin = true → ∀ body, (c.run net w).1 = .ok body →
      ((c.run net w).2.storage.getItem "token").isSome = true) := by
  refine ⟨rfl, run_storage_of_not_login c net w, ?_, ?_, ?_, ?_, ?_, ?_⟩
  · intro e he
    rcases run_cases c net w with ⟨_, _, h⟩ | ⟨_, _, h⟩ | ⟨_, body, _, _, hbody, _⟩
    · exact h
    · exact h
    · rw [hbody] at he
      cases he
  · intro built f hbuilt hfail
    rw [run_of_error c net w built f hbuilt hfail]
  · rcases run_cases c net w with ⟨_, _, h⟩ | ⟨_, _, h⟩ | ⟨hc, body, _, t, hbody, _, _, h⟩
    · exact Or.inl h
    · exact Or.inl h
    · exact Or.inr ⟨hc, body, t, hbody, h⟩
  · intro key hkey
    rcases run_cases c net w with ⟨_, _, h⟩ | ⟨_, _, h⟩ | ⟨_, _, _, t, _, _, _, h⟩
    · rw [h]
    · rw [h]
    · rw [h, getItem_storeEntry_of_ne _ _ _ _ hkey]
      rfl
  · intro hsome
    rcases run_cases c net w with ⟨_, _, h⟩ | ⟨_, _, h⟩ | ⟨_, _, _, t, _, _, _, h⟩
    · rw [h]
      exact hsome
    · rw [h]
      exact hsome
    · rw [h, getItem_storeEntry_self]
      rfl
  · intro hc body hbody
    rcases run_cases c net w with ⟨e, he, _⟩ | ⟨hc', _⟩ | ⟨_, _, _, t, _, _, _, h⟩
    · rw [he] at hbody
      cases hbody
    · rw [hc] at hc'
      cases hc'
    · rw [h, getItem_storeEntry_self]
      rfl

theorem storage_written_only_by_login_witness :
    (Call.run (.createPost (.str "hi") .undefined) (respond 201 .null)
        ⟨⟨[("token", "abc")]⟩, []⟩).2.storage = ⟨[("token", "abc")]⟩ ∧
    (Call.run (.login (.str "bob") (.str "pw")) (respond 200 .null)
        ⟨⟨[("token", "abc")]⟩, []⟩).2.storage = ⟨[("token", "abc")]⟩ ∧
    (Call.run (.login (.str "bob") (.str "pw"))
        (respond 200 (.obj [("access_token", .obj [("toString", .num "1")])]))
        ⟨⟨[("token", "abc")]⟩, []⟩).2.storage = ⟨[("token", "abc")]⟩ ∧
    (Call.run (.login (.str "bob") (.str "pw")) (respond 401 .null)
        ⟨⟨[("token", "abc")]⟩, []⟩).2.storage = ⟨[("token", "abc")]⟩ ∧
    (Call.run (.login (.str "bob") (.str "pw")) (respond 200 (.obj [("access_token", .str "x")]))
        ⟨⟨[("lang", "uk")]⟩, []⟩).2.storage.getItem "lang" = some "uk" :=
  ⟨(storage_written_only_by_login (.createPost (.str "hi") .undefined) (respond 201 .null)
      ⟨⟨[("token", "abc")]⟩, []⟩ api).2.1 rfl,
    (storage_written_only_by_login (.login (.str "bob") (.str "pw")) (respond 200 .null)
      ⟨⟨[("token", "abc")]⟩, []⟩ api).2.2.1 .typeError rfl,
    (storage_written_only_by_login (.login (.str "bob") (.str "pw"))
      (respond 200 (.obj [("access_token", .obj [("toString", .num "1")])]))
      ⟨⟨[("token", "abc")]⟩, []⟩ api).2.2.1 .typeError rfl,
    (storage_written_only_by_login (.login (.str "bob") (.str "pw")) (respond 401 .null)
      ⟨⟨[("token", "abc")]⟩, []⟩ api).2.2.2.1
      { api with
        method := "post"
        url := "/api/auth/token"
        data := .form ⟨[("username", .text "bob"), ("password", .text "pw")]⟩ }
      (.badStatus 401 .null) rfl rfl,
    (storage_written_only_by_login (.login (.str "bob") (.str "pw"))
      (respond 200 (.obj [("access_token", .str "x")])) ⟨⟨[("lang", "uk")]⟩, []⟩
      api).2.2.2.2.2.1 "lang" (by decide)⟩

/-! ## Returned values -/

/-- C9, as stated, fails: a login whose request succeeds with the response body
`null` does not return that body; it is rejected with a `TypeError`. -/
theorem login_null_body_counterexample :
    settle (respond 200 .null (dispatched (.login (.str "bob") (.str "pw")) emptyWorld)) =
      .ok ⟨200, .null⟩ ∧
    (login (.str "bob") (.str "pw") (respond 200 .null) emptyWorld).1 = .error .typeError :=
  ⟨rfl, rfl⟩

/-- C9, amended: on every successful HTTP response to their request,
`register`, `me`, `feed`, `createPost` and `userProfile` return exactly the
body of the response; so does `login` for every body whose `access_token` can
be read (every body other than `null` and `undefined`) and converted to a
string, and it then holds under the key `token` that string: the
`access_token` itself when it is a string. -/
theorem returns_response_body (c : Call) (net : Network) (w : World) (built : Config)
    (status : Nat) (body : JSValue) (hbuilt : c.request = .ok built)
    (hnet : net (requestInterceptor w.storage built) = .response status body)
    (hstatus : 200 ≤ status ∧ status < 300) :
    (c.returnsBody = true → c.isLogin = false → (c.run net w).1 = .ok body) ∧
    (c.isLogin = true → ∀ token t, accessToken body = .ok token → toDOMString token = .ok t →
      (c.run net w).1 = .ok body ∧ (c.run net w).2.storage.getItem "token" = some t) ∧
    (c.isLogin = true → ∀ t, accessToken body = .ok (.str t) →
      (c.run net w).1 = .ok body ∧ (c.run net w).2.storage.getItem "token" = some t) ∧
    (body ≠ .null → body ≠ .undefined → ∃ token, accessToken body = .ok token) := by
  have hok : settle (net (requestInterceptor w.storage built)) = .ok ⟨status, body⟩ := by
    rw [hnet]
    exact settle_of_success status body hstatus
  have hlogin : c.isLogin = true → ∀ token t, accessToken body = .ok token →
      toDOMString token = .ok t →
      (c.run net w).1 = .ok body ∧ (c.run net w).2.storage.getItem "token" = some t := by
    intro hc token t htoken ht
    cases c with
    | login username password =>
      simp only [Call.run]
      rw [login_of_ok username password net w built ⟨status, body⟩ token t hbuilt hok htoken ht]
      exact ⟨rfl, getItem_storeEntry_self "token" t w.storage.entries⟩
    | register _ => simp [Call.isLogin] at hc
    | me => simp [Call.isLogin] at hc
    | feed => simp [Call.isLogin] at hc
    | createPost _ _ => simp [Call.isLogin] at hc
    | like _ => simp [Call.isLogin] at hc
    | unlike _ => simp [Call.isLogin] at hc
    | userProfile _ => simp [Call.isLogin] at hc
  refine ⟨?_, hlogin, ?_, accessToken_ok body⟩
  · intro hreturns hc
    rw [run_of_ok c net w built ⟨status, body⟩ hc hbuilt hok, hreturns]
    rfl
  · intro hc t htoken
    exact hlogin hc (.str t) t htoken rfl

theorem returns_response_body_witness :
    (Call.run (.userProfile (.str "bob")) (respond 200 (.obj [("username", .str "bob")]))
        emptyWorld).1 = .ok (.obj [("username", .str "bob")]) ∧
    (Call.run (.login (.str "bob") (.str "pw")) (respond 200 (.obj [("access_token", .num "5")]))
        emptyWorld).1 = .ok (.obj [("access_token", .num "5")]) ∧
    (Call.run (.login (.str "bob") (.str "pw")) (respond 200 (.obj [("access_token", .num "5")]))
        emptyWorld).2.storage.getItem "token" = some "5" :=
  ⟨(returns_response_body (.userProfile (.str "bob"))
      (respond 200 (.obj [("username", .str "bob")])) emptyWorld
      { api with method := "get", url := "/api/users/bob" } 200
      (.obj [("username", .str "bob")]) rfl rfl (by decide)).1 rfl rfl,
    (returns_response_body (.login (.str "bob") (.str "pw"))
      (respond 200 (.obj [("access_token", .num "5")])) emptyWorld
      { api with
        method := "post"
        url := "/api/auth/token"
        data := .form ⟨[("username", .text "bob"), ("password", .text "pw")]⟩ }
      200 (.obj [("access_token", .num "5")]) rfl rfl (by decide)).2.1 rfl (.num "5") "5"
      rfl rfl⟩

/-! ## Lemmas on percent-encoding -/

theorem isUnreserved_lt (n : Nat) (h : isUnreserved n = true) : n < 127 := by
  simp only [isUnreserved, Bool.or_eq_true, Bool.and_eq_true, decide_eq_true_eq] at h
  omega

theorem char_scalar (c : Char) :
    c.toNat < 55296 ∨ (57343 < c.toNat ∧ c.toNat < 1114112) :=
  c.valid

theorem encodeUnits_cons (unit : Nat) (rest : List Nat) :
    encodeUnits (unit :: rest) =
      if isUnreserved unit then
        match encodeUnits rest with
        | .error e => .error e
        | .ok encoded => .ok (Char.ofNat unit :: encoded)
      else if 56320 ≤ unit ∧ unit ≤ 57343 then .error .uriError
      else if 55296 ≤ unit ∧ unit ≤ 56319 then
        match rest with
        | [] => .error .uriError
        | low :: rest =>
          if 56320 ≤ low ∧ low ≤ 57343 then
            match encodeUnits rest with
            | .error e => .error e
            | .ok encoded =>
              .ok (percentEscapes (utf8Bytes (65536 + (unit - 55296) * 1024 + (low - 56320)))
                ++ encoded)
          else .error .uriError
      else
        match encodeUnits rest with
        | .error e => .error e
        | .ok encoded => .ok (percentEscapes (utf8Bytes unit) ++ encoded) := by
  cases rest <;> rfl

/-- On the code units of a well-formed string `encodeURIComponent` does not
throw, and yields the percent-encoding of the string. -/
theorem encodeUnits_unitsOf (cs : List Char) :
    encodeUnits (unitsOf cs) = .ok (percentEncodingChars cs) := by
  induction cs with
  | nil => rfl
  | cons c rest ih =>
    have hv := char_scalar c
    by_cases hsmall : c.toNat < 65536
    · by_cases hu : isUnreserved c.toNat = true
      · simp only [unitsOf, hsmall, if_true, List.cons_append, List.nil_append,
          encodeUnits_cons, hu, ih, percentEncodingChars, Char.ofNat_toNat]
      · have h1 : ¬ (56320 ≤ c.toNat ∧ c.toNat ≤ 57343) := by omega
        have h2 : ¬ (55296 ≤ c.toNat ∧ c.toNat ≤ 56319) := by omega
        simp only [unitsOf, hsmall, if_true, List.cons_append, List.nil_append,
          encodeUnits_cons, hu, h1, h2, ih, percentEncodingChars, if_false,
          Bool.false_eq_true]
    · have hu : ¬ isUnreserved c.toNat = true := by
        intro h
        have := isUnreserved_lt _ h
        omega
      have hhigh : ¬ isUnreserved (55296 + (c.toNat - 65536) / 1024) = true := by
        intro h
        have := isUnreserved_lt _ h
        omega
      have h1 : ¬ (56320 ≤ 55296 + (c.toNat - 65536) / 1024 ∧
          55296 + (c.toNat - 65536) / 1024 ≤ 57343) := by omega
      have h2 : 55296 ≤ 55296 + (c.toNat - 65536) / 1024 ∧
          55296 + (c.toNat - 65536) / 1024 ≤ 56319 := by omega
      have h3 : 56320 ≤ 56320 + (c.toNat - 65536) % 1024 ∧
          56320 + (c.toNat - 65536) % 1024 ≤ 57343 := by omega
      have h4 : 65536 + (55296 + (c.toNat - 65536) / 1024 - 55296) * 1024 +
          (56320 + (c.toNat - 65536) % 1024 - 56320) = c.toNat := by omega
      have hunits : unitsOf (c :: rest) =
          (55296 + (c.toNat - 65536) / 1024) :: (56320 + (c.toNat - 65536) % 1024) ::
            unitsOf rest := by
        rw [unitsOf, if_neg hsmall]
        rfl
      have hspec : percentEncodingChars (c :: rest) =
          percentEscapes (utf8Bytes c.toNat) ++ percentEncodingChars rest := by
        rw [percentEncodingChars, if_neg hu]
      rw [hunits, hspec, encodeUnits_cons, if_neg hhigh, if_neg h1, if_pos h2]
      dsimp only
      rw [if_pos h3, h4, ih]

theorem hexValue_hexDigit (k : Nat) (hk : k < 16) : hexValue (hexDigit k) = some k := by
  interval_cases k <;> rfl

theorem utf8Bytes_lt (n : Nat) (hn : n < 1114112) : ∀ b ∈ utf8Bytes n, b < 256 := by
  intro b hb
  unfold utf8Bytes at hb
  split at hb
  · simp only [List.mem_singleton] at hb
    omega
  · split at hb
    · simp only [List.mem_cons, List.mem_singleton, List.not_mem_nil, or_false] at hb
      omega
    · split at hb
      · simp only [List.mem_cons, List.mem_singleton, List.not_mem_nil, or_false] at hb
        omega
      · simp only [List.mem_cons, List.mem_singleton, List.not_mem_nil, or_false] at hb
        omega

theorem unescape_escape (high low : Char) (rest : List Char) :
    unescape ('%' :: high :: low :: rest) =
      match hexValue high, hexValue low, unescape rest with
      | some h, some l, some bytes => some ((16 * h + l) :: bytes)
      | _, _, _ => none := rfl

theorem unescape_cons (c : Char) (rest : List Char) (hpercent : c ≠ '%') :
    unescape (c :: rest) =
      if isUnreserved c.toNat then
        match unescape rest with
        | some bytes => some (c.toNat :: bytes)
        | none => none
      else none := by
  have hunfold : unescape (c :: rest) =
      if c = '%' then
        match rest with
        | high :: low :: rest =>
          match hexValue high, hexValue low, unescape rest with
          | some h, some l, some bytes => some ((16 * h + l) :: bytes)
          | _, _, _ => none
        | _ => none
      else if isUnreserved c.toNat then
        match unescape rest with
        | some bytes => some (c.toNat :: bytes)
        | none => none
      else none := by
    cases rest with
    | nil => rfl
    | cons high rest => cases rest <;> rfl
  rw [hunfold, if_neg hpercent]

theorem unescape_unreserved (c : Char) (rest : List Char) (hpercent : c ≠ '%')
    (hu : isUnreserved c.toNat = true) :
    unescape (c :: rest) =
      match unescape rest with
      | some bytes => some (c.toNat :: bytes)
      | none => none := by
  rw [unescape_cons c rest hpercent, if_pos hu]

theorem percentEscapes_cons_append (b : Nat) (rest : List Nat) (tail : List Char) :
    percentEscapes (b :: rest) ++ tail =
      '%' :: hexDigit (b / 16) :: hexDigit (b % 16) :: (percentEscapes rest ++ tail) := by
  simp only [percentEscapes, percentEscape, List.cons_append, List.nil_append]

/-- The escapes of bytes stand for those bytes. -/
theorem unescape_percentEscapes (bytes : List Nat) (tail : List Char)
    (hbytes : ∀ b ∈ bytes, b < 256) :
    unescape (percentEscapes bytes ++ tail) =
      match unescape tail with
      | some more => some (bytes ++ more)
      | none => none := by
  induction bytes with
  | nil =>
    rw [percentEscapes, List.nil_append]
    cases unescape tail <;> rfl
  | cons b rest ih =>
    have hb : b < 256 := hbytes b (List.mem_cons_self _ _)
    have hrest : ∀ x ∈ rest, x < 256 := fun x hx => hbytes x (List.mem_cons_of_mem _ hx)
    have hhigh := hexValue_hexDigit (b / 16) (by omega)
    have hlow := hexValue_hexDigit (b % 16) (by omega)
    have hval : 16 * (b / 16) + b % 16 = b := by omega
    rw [percentEscapes_cons_append, unescape_escape, hhigh, hlow, ih hrest]
    cases unescape tail with
    | none => rfl
    | some more => simp only [hval, List.cons_append]

/-- The percent-encoding of characters stands for their UTF-8 bytes. -/
theorem unescape_percentEncodingChars (cs : List Char) :
    unescape (percentEncodingChars cs) = some (utf8Of cs) := by
  induction cs with
  | nil => rfl
  | cons c rest ih =>
    have hv := char_scalar c
    by_cases hu : isUnreserved c.toNat = true
    · have hlt := isUnreserved_lt _ hu
      have hpercent : c ≠ '%' := by
        intro h
        rw [h] at hu
        exact absurd hu (by decide)
      have hbytes : utf8Bytes c.toNat = [c.toNat] := by
        simp only [utf8Bytes, show c.toNat < 128 by omega, if_true]
      simp only [percentEncodingChars, hu, if_true, List.cons_append, List.nil_append]
      rw [unescape_unreserved c _ hpercent hu, ih, utf8Of, hbytes]
      rfl
    · have hlt : c.toNat < 1114112 := by omega
      simp only [percentEncodingChars, hu, if_false, Bool.false_eq_true, utf8Of]
      rw [unescape_percentEscapes _ _ (utf8Bytes_lt _ hlt), ih]

theorem utf8Decode_cons (b0 : Nat) (rest : List Nat) :
    utf8Decode (b0 :: rest) =
      if b0 < 128 then
        match utf8Decode rest with
        | some points => some (b0 :: points)
        | none => none
      else if b0 < 192 then none
      else if b0 < 224 then
        match rest with
        | b1 :: rest =>
          if 128 ≤ b1 ∧ b1 < 192 ∧ 128 ≤ (b0 - 192) * 64 + (b1 - 128) then
            match utf8Decode rest with
            | some points => some (((b0 - 192) * 64 + (b1 - 128)) :: points)
            | none => none
          else none
        | _ => none
      else if b0 < 240 then
        match rest with
        | b1 :: b2 :: rest =>
          if 128 ≤ b1 ∧ b1 < 192 ∧ 128 ≤ b2 ∧ b2 < 192 ∧
              2048 ≤ (b0 - 224) * 4096 + (b1 - 128) * 64 + (b2 - 128) ∧
              ¬ (55296 ≤ (b0 - 224) * 4096 + (b1 - 128) * 64 + (b2 - 128) ∧
                (b0 - 224) * 4096 + (b1 - 128) * 64 + (b2 - 128) ≤ 57343) then
            match utf8Decode rest with
            | some points =>
              some (((b0 - 224) * 4096 + (b1 - 128) * 64 + (b2 - 128)) :: points)
            | none => none
          else none
        | _ => none
      else if b0 < 248 then
        match rest with
        | b1 :: b2 :: b3 :: rest =>
          if 128 ≤ b1 ∧ b1 < 192 ∧ 128 ≤ b2 ∧ b2 < 192 ∧ 128 ≤ b3 ∧ b3 < 192 ∧
              65536 ≤ (b0 - 240) * 262144 + (b1 - 128) * 4096 + (b2 - 128) * 64 + (b3 - 128) ∧
              (b0 - 240) * 262144 + (b1 - 128) * 4096 + (b2 - 128) * 64 + (b3 - 128) <
                1114112 then
            match utf8Decode rest with
            | some points =>
              some (((b0 - 240) * 262144 + (b1 - 128) * 4096 + (b2 - 128) * 64 + (b3 - 128)) ::
                points)
            | none => none
          else none
        | _ => none
      else none := by
  cases rest with
  | nil => rfl
  | cons b1 rest =>
    cases rest with
    | nil => rfl
    | cons b2 rest => cases rest <;> rfl

/-- The UTF-8 bytes of a scalar value decode to it. -/
theorem utf8Decode_utf8Bytes (n : Nat) (tail : List Nat)
    (hn : n < 55296 ∨ (57343 < n ∧ n < 1114112)) :
    utf8Decode (utf8Bytes n ++ tail) =
      match utf8Decode tail with
      | some points => some (n :: points)
      | none => none := by
  by_cases h1 : n < 128
  · have hbytes : utf8Bytes n = [n] := by rw [utf8Bytes, if_pos h1]
    rw [hbytes, List.singleton_append, utf8Decode_cons, if_pos h1]
  · by_cases h2 : n < 2048
    · have hbytes : utf8Bytes n = [192 + n / 64, 128 + n % 64] := by
        rw [utf8Bytes, if_neg h1, if_pos h2]
      have ha : ¬ 192 + n / 64 < 128 := by omega
      have hb : ¬ 192 + n / 64 < 192 := by omega
      have hc : 192 + n / 64 < 224 := by omega
      have hcond : 128 ≤ 128 + n % 64 ∧ 128 + n % 64 < 192 ∧
          128 ≤ (192 + n / 64 - 192) * 64 + (128 + n % 64 - 128) := by omega
      have hval : (192 + n / 64 - 192) * 64 + (128 + n % 64 - 128) = n := by omega
      rw [hbytes, List.cons_append, List.cons_append, List.nil_append, utf8Decode_cons,
        if_neg ha, if_neg hb, if_pos hc]
      dsimp only
      rw [if_pos hcond, hval]
    · by_cases h3 : n < 65536
      · have hbytes : utf8Bytes n = [224 + n / 4096, 128 + n / 64 % 64, 128 + n % 64] := by
          rw [utf8Bytes, if_neg h1, if_neg h2, if_pos h3]
        have ha : ¬ 224 + n / 4096 < 128 := by omega
        have hb : ¬ 224 + n / 4096 < 192 := by omega
        have hc : ¬ 224 + n / 4096 < 224 := by omega
        have hd : 224 + n / 4096 < 240 := by omega
        have hval : (224 + n / 4096 - 224) * 4096 + (128 + n / 64 % 64 - 128) * 64 +
            (128 + n % 64 - 128) = n := by omega
        have hcond : 128 ≤ 128 + n / 64 % 64 ∧ 128 + n / 64 % 64 < 192 ∧
            128 ≤ 128 + n % 64 ∧ 128 + n % 64 < 192 ∧
            2048 ≤ (224 + n / 4096 - 224) * 4096 + (128 + n / 64 % 64 - 128) * 64 +
              (128 + n % 64 - 128) ∧
            ¬ (55296 ≤ (224 + n / 4096 - 224) * 4096 + (128 + n / 64 % 64 - 128) * 64 +
                (128 + n % 64 - 128) ∧
              (224 + n / 4096 - 224) * 4096 + (128 + n / 64 % 64 - 128) * 64 +
                (128 + n % 64 - 128) ≤ 57343) := by
          rw [hval]
          omega
        rw [hbytes, List.cons_append, List.cons_append, List.cons_append, List.nil_append,
          utf8Decode_cons, if_neg ha, if_neg hb, if_neg hc, if_pos hd]
        dsimp only
        rw [if_pos hcond, hval]
      · have hbytes : utf8Bytes n =
            [240 + n / 262144, 128 + n / 4096 % 64, 128 + n / 64 % 64, 128 + n % 64] := by
          rw [utf8Bytes, if_neg h1, if_neg h2, if_neg h3]
        have ha : ¬ 240 + n / 262144 < 128 := by omega
        have hb : ¬ 240 + n / 262144 < 192 := by omega
        have hc : ¬ 240 + n / 262144 < 224 := by omega
        have hd : ¬ 240 + n / 262144 < 240 := by omega
        have he : 240 + n / 262144 < 248 := by omega
        have hval : (240 + n / 262144 - 240) * 262144 + (128 + n / 4096 % 64 - 128) * 4096 +
            (128 + n / 64 % 64 - 128) * 64 + (128 + n % 64 - 128) = n := by omega
        have hcond : 128 ≤ 128 + n / 4096 % 64 ∧ 128 + n / 4096 % 64 < 192 ∧
            128 ≤ 128 + n / 64 % 64 ∧ 128 + n / 64 % 64 < 192 ∧
            128 ≤ 128 + n % 64 ∧ 128 + n % 64 < 192 ∧
            65536 ≤ (240 + n / 262144 - 240) * 262144 + (128 + n / 4096 % 64 - 128) * 4096 +
              (128 + n / 64 % 64 - 128) * 64 + (128 + n % 64 - 128) ∧
            (240 + n / 262144 - 240) * 262144 + (128 + n / 4096 % 64 - 128) * 4096 +
              (128 + n / 64 % 64 - 128) * 64 + (128 + n % 64 - 128) < 1114112 := by
          rw [hval]
          omega
        rw [hbytes, List.cons_append, List.cons_append, List.cons_append, List.cons_append,
          List.nil_append, utf8Decode_cons, if_neg ha, if_neg hb, if_neg hc, if_neg hd,
          if_pos he]
        dsimp only
        rw [if_pos hcond, hval]

/-- The UTF-8 encoding of characters decodes to their code points. -/
theorem utf8Decode_utf8Of (cs : List Char) :
    utf8Decode (utf8Of cs) = some (cs.map Char.toNat) := by
  induction cs with
  | nil => rfl
  | cons c rest ih =>
    rw [utf8Of, utf8Decode_utf8Bytes _ _ (char_scalar c), ih]
    rfl

/-- The percent-encoding of a string of unreserved characters is the string. -/
theorem percentEncodingChars_of_unreserved (cs : List Char)
    (h : ∀ c ∈ cs, isUnreserved c.toNat = true) : percentEncodingChars cs = cs := by
  induction cs with
  | nil => rfl
  | cons c rest ih =>
    have hc := h c (List.mem_cons_self _ _)
    have hrest : ∀ x ∈ rest, isUnreserved x.toNat = true :=
      fun x hx => h x (List.mem_cons_of_mem _ hx)
    rw [percentEncodingChars, if_pos hc, ih hrest]
    rfl

/-! ## `avatarUrl` -/

/-- C4, as stated, fails: on the username made of the one code unit `D800`, a
high surrogate with no low surrogate after it, `avatarUrl` throws a
`URIError` and returns no URL. -/
theorem avatarUrl_lone_surrogate_counterexample :
    avatarUrl [55296] = .error .uriError :=
  rfl

/-- C4, amended: for every well-formed username string `u` (one without a
lone surrogate), `avatarUrl(u)` is
`https://api.dicebear.com/8.x/thumbs/svg?seed=` followed by the
percent-encoding of `u`: the text that decodes back to the code points of `u`
through its `%XY` escapes and UTF-8, and in which the unreserved characters,
the ASCII letters and digits and `- _ . ! ~ * ' ( )`, stand for themselves;
`avatarUrl("bob")` and `avatarUrl("a b")` are exactly the two URLs ending in
`seed=bob` and `seed=a%20b`.  The function takes no world and returns none: it
issues no request and does not touch storage. -/
theorem avatarUrl_wellFormed (u : String) :
    avatarUrl (utf16 u) =
      .ok ("https://api.dicebear.com/8.x/thumbs/svg?seed=" ++ percentEncoding u) ∧
    percentDecoding (percentEncoding u) = some (u.data.map Char.toNat) ∧
    ((∀ c ∈ u.data, isUnreserved c.toNat = true) → percentEncoding u = u) ∧
    (∀ n, isUnreserved n = true → n < 128) ∧
    ((List.range 128).filter isUnreserved).map Char.ofNat =
      "!'()*-.0123456789ABCDEFGHIJKLMNOPQRSTUVWXYZ_abcdefghijklmnopqrstuvwxyz~".data ∧
    avatarUrl (utf16 "bob") = .ok "https://api.dicebear.com/8.x/thumbs/svg?seed=bob" ∧
    avatarUrl (utf16 "a b") = .ok "https://api.dicebear.com/8.x/thumbs/svg?seed=a%20b" := by
  refine ⟨?_, ?_, ?_, ?_, ?_, rfl, rfl⟩
  · simp only [avatarUrl, encodeURIComponent, utf16, encodeUnits_unitsOf, percentEncoding]
  · simp only [percentDecoding, percentEncoding, unescape_percentEncodingChars,
      utf8Decode_utf8Of]
  · intro h
    simp only [percentEncoding, percentEncodingChars_of_unreserved u.data h]
  · intro n hn
    have := isUnreserved_lt n hn
    omega
  · decide

theorem avatarUrl_wellFormed_witness : percentEncoding "bob" = "bob" :=
  (avatarUrl_wellFormed "bob").2.2.1 (by decide)

end ApiClient
